import Mathlib

/-!
Verification of the Game Session Orchestrator of the adventure-forge
repository.  The data model is translated from the `types` module, which is
the second chunk of `src/unnamed/part_003` (lines 434-538, after the
geminiService chunk); the operations are shallow embeddings of the handlers
in `src/App.tsx` (the orchestrator) and of the candidate filter in the
switch-perspective modal (`src/unnamed/part_002`).  External service calls
(`generateGameTurn`), the storage blob, the JSON parser and timestamps are
passed in as explicit parameters, so each handler becomes a pure function on
the component state.
-/

namespace AdventureForge

/-- The `GameState` enum of the `types` module
(`src/unnamed/part_003:434-440`): the five phases, in declaration order. -/
inductive GameState where
  | characterCreationStart
  | characterCreationFinalize
  | gameplay
  | combat
  | gameOver
deriving DecidableEq, Repr

/-- The speaker union `'game' | 'player' | 'system'` inlined in the
`Message` interface of the `types` module (`src/unnamed/part_003:488-491`),
embedded as a named enumeration. -/
inductive Speaker where
  | game
  | player
  | system
deriving DecidableEq, Repr

/-- The `Message` interface of the `types` module
(`src/unnamed/part_003:488-491`). -/
structure Message where
  speaker : Speaker
  text : String
deriving DecidableEq, Repr

/-- The type union `'item' | 'weapon' | 'armor'` inlined in the
`InventoryItem` interface of the `types` module
(`src/unnamed/part_003:442-447`), embedded as a named enumeration. -/
inductive ItemType where
  | item
  | weapon
  | armor
deriving DecidableEq, Repr

/-- The `InventoryItem` interface of the `types` module
(`src/unnamed/part_003:442-447`).  Quantities are JavaScript numbers used
integrally, so they are embedded as `Int`. -/
structure InventoryItem where
  name : String
  description : String
  quantity : Int
  type : ItemType
deriving DecidableEq, Repr

/-- The `Companion` interface of the `types` module
(`src/unnamed/part_003:449-455`). -/
structure Companion where
  id : String
  name : String
  kind : String
  backstory : String
  relationship : String
deriving DecidableEq, Repr

/-- The font union `'serif' | 'sans-serif' | 'mono'` inlined in the
`VisualTheme` interface of the `types` module
(`src/unnamed/part_003:462-469`), embedded as a named enumeration
(`sansSerif` stands for the literal `'sans-serif'`). -/
inductive FontStyle where
  | serif
  | sansSerif
  | mono
deriving DecidableEq, Repr

/-- The `VisualTheme` interface of the `types` module
(`src/unnamed/part_003:462-469`). -/
structure VisualTheme where
  mainBackgroundColor : String
  textColor : String
  accentColor : String
  buttonColor : String
  borderColor : String
  font : FontStyle
deriving DecidableEq, Repr

/-- The `Customization` interface of the `types` module
(`src/unnamed/part_003:457-460`): an `area` and its `selection` list. -/
structure Customization where
  area : String
  selection : List String
deriving DecidableEq, Repr

/-- The `Character` interface of the `types` module
(`src/unnamed/part_003:471-486`), fields in declaration order; the optional
fields `companions?`, `canonEvents?` and `visualTheme?` are `Option`s. -/
structure Character where
  id : String
  name : String
  theme : String
  isFromKnownWorld : Bool
  description : String
  alignment : String
  backstory : String
  health : Int
  maxHealth : Int
  customizations : List Customization
  inventory : List InventoryItem
  companions : Option (List Companion)
  canonEvents : Option String
  visualTheme : Option VisualTheme
deriving DecidableEq, Repr

/-- The protagonist status used by the continuation context in
`src/App.tsx` (`'dead' | 'alive'`). -/
inductive ProtagonistStatus where
  | dead
  | alive
deriving DecidableEq, Repr

/-- `ProtagonistContext` from `src/App.tsx`. -/
structure ProtagonistContext where
  name : String
  status : ProtagonistStatus
deriving DecidableEq, Repr

/-- The `CustomizationArea` interface of the `types` module
(`src/unnamed/part_003:493-496`). -/
structure CustomizationArea where
  areaName : String
  options : List String
deriving DecidableEq, Repr

/-- The `CustomizationTab` interface of the `types` module
(`src/unnamed/part_003:498-501`). -/
structure CustomizationTab where
  tabName : String
  areas : List CustomizationArea
deriving DecidableEq, Repr

/-- The `CompanionSuggestion` interface of the `types` module
(`src/unnamed/part_003:503-506`). -/
structure CompanionSuggestion where
  name : String
  kind : String
deriving DecidableEq, Repr

/-- The `CharacterCreatorOptions` interface of the `types` module
(`src/unnamed/part_003:508-517`); the optional `startingCompanions?` is an
`Option`. -/
structure CharacterCreatorOptions where
  theme : String
  description : String
  backstory : String
  alignments : List String
  customizationTabs : List CustomizationTab
  startingInventory : List InventoryItem
  startingHealth : Int
  startingCompanions : Option (List CompanionSuggestion)
deriving DecidableEq, Repr

/-- The action union `'add' | 'remove'` inlined in the `inventoryChange`
object type of the `GameTurnResult` interface
(`src/unnamed/part_003:525-528`), embedded as a named enumeration. -/
inductive InvAction where
  | add
  | remove
deriving DecidableEq, Repr

/-- The inline `inventoryChange` object type of the `GameTurnResult`
interface (`src/unnamed/part_003:525-528`): `{ action, item }`. -/
structure InventoryChange where
  action : InvAction
  item : InventoryItem
deriving DecidableEq, Repr

/-- The `GameTurnResult` interface of the `types` module
(`src/unnamed/part_003:519-530`): the structured turn result returned by the
Narrative Generation Service; the optional `inventoryChange?` is an
`Option`.  (The geminiService `gameTurnSchema` can additionally emit a
`newCharacters` array, which this interface omits and `src/App.tsx` never
reads.) -/
structure GameTurnResult where
  sceneDescription : String
  choices : List String
  isCombat : Bool
  attackOptions : List String
  updatedHealth : Int
  inventoryChange : Option InventoryChange
  isGameOver : Bool
deriving DecidableEq, Repr

/-- The `SaveData` interface of the `types` module
(`src/unnamed/part_003:532-540`). -/
structure SaveData where
  id : String
  lastSaved : String
  gameState : GameState
  character : Character
  messages : List Message
  choices : List String
  attackOptions : List String
deriving DecidableEq, Repr

/-- The single-level undo snapshot `TurnState` from `src/App.tsx`. -/
structure TurnState where
  gameState : GameState
  character : Character
  messages : List Message
  choices : List String
  attackOptions : List String
deriving DecidableEq, Repr

/-- The transient save-status banner `saveMessage` from `src/App.tsx`. -/
structure SaveMessage where
  text : String
  isError : Bool
deriving DecidableEq, Repr

/-- The full component state of the `App` component in `src/App.tsx`: one
field per `useState` hook, in declaration order. -/
structure AppState where
  gameState : GameState
  character : Option Character
  messages : List Message
  choices : List String
  attackOptions : List String
  isLoading : Bool
  error : Option String
  creatorOptions : Option CharacterCreatorOptions
  savedGames : List SaveData
  saveMessage : Option SaveMessage
  hasInitiatedOptionsFetch : Bool
  previousTurnState : Option TurnState
  worldThemeForContinuation : Option String
  previousProtagonist : Option ProtagonistContext
  worldHistoryForContinuation : Option (List Message)
  isSwitchingPerspective : Bool
deriving DecidableEq, Repr

/-- The case-folding used by the source's `toLowerCase()` comparisons,
embedded at the character-list level (`String.toLower` itself is defined by
well-founded recursion over byte positions and does not reduce inside the
kernel; this definition maps `Char.toLower` over the characters, which is
what `String.toLower` computes). -/
def lowerStr (s : String) : String := String.mk (s.data.map Char.toLower)

/-- The initial values of all `useState` hooks of the `App` component. -/
def initialAppState : AppState where
  gameState := GameState.characterCreationStart
  character := none
  messages := []
  choices := []
  attackOptions := []
  isLoading := false
  error := none
  creatorOptions := none
  savedGames := []
  saveMessage := none
  hasInitiatedOptionsFetch := false
  previousTurnState := none
  worldThemeForContinuation := none
  previousProtagonist := none
  worldHistoryForContinuation := none
  isSwitchingPerspective := false

/-- The inventory-change block of `processTurnResult` in `src/App.tsx`:
`findIndex` with a case-insensitive name comparison locates the first
matching entry; `add` increments its quantity in place (or pushes the item
if no entry matches); `remove` decrements it and splices the entry out when
the resulting quantity is `≤ 0` (and is a no-op when no entry matches).
The `findIndex`-then-mutate of the source is embedded as first-match
structural recursion. -/
def applyInventoryChange : List InventoryItem → InventoryChange → List InventoryItem
  | [], ch =>
    match ch.action with
    | InvAction.add => [ch.item]
    | InvAction.remove => []
  | x :: xs, ch =>
    if lowerStr x.name == lowerStr ch.item.name then
      match ch.action with
      | InvAction.add => { x with quantity := x.quantity + ch.item.quantity } :: xs
      | InvAction.remove =>
        if x.quantity - ch.item.quantity ≤ 0 then xs
        else { x with quantity := x.quantity - ch.item.quantity } :: xs
    else
      x :: applyInventoryChange xs ch

/-- `processTurnResult` from `src/App.tsx`: applies the optional inventory
change to the already-health-updated character, appends the scene text as a
`game` message, then either enters `gameOver` (clearing choices, attack
options and the undo snapshot) when the result signals game over or the
character's health is `≤ 0`, or else sets the new choices/attack options and
enters `combat` or `gameplay` per the combat flag. -/
def processTurnResult (s : AppState) (turnResult : GameTurnResult)
    (newCharacterState : Character) : AppState :=
  let updatedInventory :=
    match turnResult.inventoryChange with
    | some ch => applyInventoryChange newCharacterState.inventory ch
    | none => newCharacterState.inventory
  let c := { newCharacterState with inventory := updatedInventory }
  let s₁ := { s with character := some c,
                     messages := s.messages ++ [Message.mk Speaker.game turnResult.sceneDescription] }
  if turnResult.isGameOver ∨ c.health ≤ 0 then
    { s₁ with gameState := GameState.gameOver, choices := [], attackOptions := [],
              previousTurnState := none }
  else
    { s₁ with choices := turnResult.choices, attackOptions := turnResult.attackOptions,
              gameState := if turnResult.isCombat then GameState.combat else GameState.gameplay }

/-- `handlePlayerChoice` from `src/App.tsx`.  The `generateGameTurn` call is
the only suspension point; its result (or failure message) is passed in as
`outcome`.  With no live character the handler returns immediately.
Otherwise it snapshots the pre-turn state, sets `isLoading`, clears the
error, appends the player message, and then either processes the turn result
or records the failure, finally clearing `isLoading`. -/
def handlePlayerChoice (s : AppState) (choice : String)
    (outcome : Except String GameTurnResult) : AppState :=
  match s.character with
  | none => s
  | some character =>
    let snap : TurnState := ⟨s.gameState, character, s.messages, s.choices, s.attackOptions⟩
    let s₁ := { s with previousTurnState := some snap, isLoading := true, error := none }
    let s₂ := { s₁ with messages := s₁.messages ++ [Message.mk Speaker.player choice] }
    match outcome with
    | Except.ok turnResult =>
      let newCharacterState := { character with health := turnResult.updatedHealth }
      let s₃ := processTurnResult s₂ turnResult newCharacterState
      { s₃ with isLoading := false }
    | Except.error msg =>
      { s₂ with error := some msg,
                messages := s₂.messages ++ [Message.mk Speaker.system ("Error: " ++ msg)],
                isLoading := false }

/-- `handleLetFateDecide` from `src/App.tsx`: guarded on a live character;
clears the undo snapshot up front ("fate is final"), appends the fate system
message, then processes the turn result, or on failure records the error and
forces the phase to `gameOver`. -/
def handleLetFateDecide (s : AppState) (outcome : Except String GameTurnResult) : AppState :=
  match s.character with
  | none => s
  | some character =>
    let s₁ := { s with isLoading := true, error := none, previousTurnState := none }
    let s₂ := { s₁ with
      messages := s₁.messages ++ [Message.mk Speaker.system "A thread of fate refuses to be severed..."] }
    match outcome with
    | Except.ok turnResult =>
      let newCharacterState := { character with health := turnResult.updatedHealth }
      let s₃ := processTurnResult s₂ turnResult newCharacterState
      { s₃ with isLoading := false }
    | Except.error msg =>
      { s₂ with error := some msg,
                messages := s₂.messages ++
                  [Message.mk Speaker.system ("Error: Fate itself recoils in error. " ++ msg)],
                gameState := GameState.gameOver,
                isLoading := false }

/-- The upsert of `handleSaveGame` in `src/App.tsx`: `findIndex` by save id,
replace the first entry with that id if present, else push.  Embedded as
first-match structural recursion. -/
def upsertSave : List SaveData → SaveData → List SaveData
  | [], sd => [sd]
  | x :: xs, sd => if x.id == sd.id then sd :: xs else x :: upsertSave xs sd

/-- `handleSaveGame` from `src/App.tsx`: guarded on a live character;
re-reads the stored collection (passed in here as `stored`, already parsed —
the source re-parses the blob on every save), upserts the current session
under the character's id with the `now` timestamp, writes the collection
back (the second component; `none` means no write happened) and records the
transient "Game Saved!" banner.  The storage-failure catch and the banner
auto-clear timer are not modelled. -/
def handleSaveGame (s : AppState) (stored : List SaveData) (now : String) :
    AppState × Option (List SaveData) :=
  match s.character with
  | none => (s, none)
  | some character =>
    let newSaveData : SaveData :=
      ⟨character.id, now, s.gameState, character, s.messages, s.choices, s.attackOptions⟩
    let allSaves := upsertSave stored newSaveData
    ({ s with savedGames := allSaves, saveMessage := some ⟨"Game Saved!", false⟩ }, some allSaves)

/-- `handleLoadGame` from `src/App.tsx`: looks the save up by id in the
in-memory `savedGames`; on success replaces the five session components
(appending the optional perspective-switch context messages after the loaded
history) and clears creator/continuation/undo transient state; on failure
only sets the error. -/
def handleLoadGame (s : AppState) (saveId : String)
    (contextMessages : Option (List Message)) : AppState :=
  match s.savedGames.find? (fun sd => sd.id == saveId) with
  | some saveData =>
    { s with gameState := saveData.gameState,
             character := some saveData.character,
             messages := match contextMessages with
                         | some cm => saveData.messages ++ cm
                         | none => saveData.messages,
             choices := saveData.choices,
             attackOptions := saveData.attackOptions,
             creatorOptions := none,
             error := none,
             worldThemeForContinuation := none,
             previousTurnState := none,
             hasInitiatedOptionsFetch := false,
             isSwitchingPerspective := false }
  | none => { s with error := some "Could not find the selected save file." }

/-- `handleUndo` from `src/App.tsx`: when a snapshot exists, restore the five
session components from it, clear the snapshot and the error; otherwise do
nothing. -/
def handleUndo (s : AppState) : AppState :=
  match s.previousTurnState with
  | some prev =>
    { s with gameState := prev.gameState,
             character := some prev.character,
             messages := prev.messages,
             choices := prev.choices,
             attackOptions := prev.attackOptions,
             previousTurnState := none,
             error := none }
  | none => s

/-- The `canUndo` prop computed in `src/App.tsx`:
`!!previousTurnState && !isLoading`. -/
def canUndo (s : AppState) : Bool :=
  s.previousTurnState.isSome && !s.isLoading

/-- The `availableCharacters` filter of the switch-perspective modal
(`src/unnamed/part_002`): saves whose character theme strictly equals the
current theme and whose character id differs from the current id, both
compared against possibly-absent props. -/
def availableCharacters (savedGames : List SaveData) (currentCharacterId : Option String)
    (currentTheme : Option String) : List SaveData :=
  savedGames.filter (fun save =>
    (some save.character.theme == currentTheme) && !(some save.character.id == currentCharacterId))

/-- The case-insensitive identity key of an inventory entry. -/
def itemKey (i : InventoryItem) : String := lowerStr i.name

/-- The quantity recorded for (case-insensitive) name `n`: the quantity of
the first matching entry, `0` when no entry matches. -/
def invQty (inv : List InventoryItem) (n : String) : Int :=
  match inv.find? (fun i => lowerStr i.name == lowerStr n) with
  | some i => i.quantity
  | none => 0

/-- A sequence of inventory deltas applied through the mutation engine. -/
def applyDeltas (inv : List InventoryItem) (ds : List InventoryChange) : List InventoryItem :=
  ds.foldl applyInventoryChange inv

/-- The inventory data-model invariant: at most one entry per
case-insensitive name, and every stored quantity strictly positive. -/
def invInvariant (inv : List InventoryItem) : Prop :=
  (inv.map itemKey).Nodup ∧ ∀ i ∈ inv, 0 < i.quantity

instance (inv : List InventoryItem) : Decidable (invInvariant inv) := by
  unfold invInvariant; infer_instance

/-- This definition follows the claim's words, not the source: the signed net
of a delta sequence for name `n` — added quantities summed minus removed
quantities summed. -/
def claimNetQty (ds : List InventoryChange) (n : String) : Int :=
  ds.foldl (fun acc ch =>
    if lowerStr ch.item.name == lowerStr n then
      match ch.action with
      | InvAction.add => acc + ch.item.quantity
      | InvAction.remove => acc - ch.item.quantity
    else acc) 0

/-- One step of the per-name quantity evolution actually implemented by the
mutation engine: an `add` for the name adds its quantity, a `remove` for the
name subtracts and clamps at zero (entry removal), deltas for other names
leave it unchanged. -/
def qtyStep (q : Int) (ch : InventoryChange) (n : String) : Int :=
  if lowerStr ch.item.name == lowerStr n then
    match ch.action with
    | InvAction.add => q + ch.item.quantity
    | InvAction.remove => max (q - ch.item.quantity) 0
  else q

/-- The per-name quantity after a delta sequence: the left fold of
`qtyStep`. -/
def clampedFoldQty (q₀ : Int) (ds : List InventoryChange) (n : String) : Int :=
  ds.foldl (fun q ch => qtyStep q ch n) q₀


/-- A concrete character used to instantiate the universally quantified
theorems at explicit inputs. -/
def sampleCharacter : Character where
  id := "1700000000000-Arin"
  name := "Arin"
  theme := "Oakhaven"
  isFromKnownWorld := false
  description := "a wandering scholar"
  alignment := "Neutral Good"
  backstory := "left home in search of lost lore"
  health := 100
  maxHealth := 100
  customizations := []
  inventory := [⟨"Torch", "a simple torch", 1, ItemType.item⟩]
  companions := none
  canonEvents := none
  visualTheme := none

/-- A concrete mid-game session state with a live character. -/
def sampleState : AppState :=
  { initialAppState with
      gameState := GameState.gameplay
      character := some sampleCharacter
      messages := [Message.mk Speaker.system "Your adventure in the world of Oakhaven begins..."]
      choices := ["Look around"] }

/-- A concrete successful turn result. -/
def sampleTurn : GameTurnResult where
  sceneDescription := "The corridor narrows."
  choices := ["Press on", "Turn back"]
  isCombat := false
  attackOptions := []
  updatedHealth := 80
  inventoryChange := none
  isGameOver := false

/-- The delta sequence on which the net-sum reading of the inventory
reconciliation claim diverges from the code: add 1, remove 5, add 3 of the
same item name. -/
def exDeltas : List InventoryChange :=
  [⟨InvAction.add, ⟨"x", "an x", 1, ItemType.item⟩⟩,
   ⟨InvAction.remove, ⟨"x", "an x", 5, ItemType.item⟩⟩,
   ⟨InvAction.add, ⟨"x", "an x", 3, ItemType.item⟩⟩]

/-! ### Inventory reconciliation lemmas -/

theorem invQty_cons_pos {x : InventoryItem} {xs : List InventoryItem} {n : String}
    (h : lowerStr x.name = lowerStr n) : invQty (x :: xs) n = x.quantity := by
  simp [invQty, List.find?_cons_of_pos, h]

theorem invQty_cons_neg {x : InventoryItem} {xs : List InventoryItem} {n : String}
    (h : lowerStr x.name ≠ lowerStr n) : invQty (x :: xs) n = invQty xs n := by
  have : (x :: xs).find? (fun i => lowerStr i.name == lowerStr n)
      = xs.find? (fun i => lowerStr i.name == lowerStr n) := by
    apply List.find?_cons_of_neg
    simpa using h
  simp [invQty, this]

theorem invQty_eq_zero_of_no_match {inv : List InventoryItem} {n : String}
    (h : ∀ i ∈ inv, lowerStr i.name ≠ lowerStr n) : invQty inv n = 0 := by
  have : inv.find? (fun i => lowerStr i.name == lowerStr n) = none := by
    rw [List.find?_eq_none]
    intro i hi
    simpa using h i hi
  simp [invQty, this]

theorem invQty_applyInventoryChange (ch : InventoryChange) (hq : 0 < ch.item.quantity) :
    ∀ inv : List InventoryItem, invInvariant inv → ∀ n,
      invQty (applyInventoryChange inv ch) n = qtyStep (invQty inv n) ch n := by
  obtain ⟨act, it⟩ := ch
  have hq' : 0 < it.quantity := hq
  intro inv
  induction inv with
  | nil =>
    intro _ n
    cases act with
    | add =>
      by_cases hn : lowerStr it.name = lowerStr n
      · simp [applyInventoryChange, qtyStep, invQty, hn]
      · simp [applyInventoryChange, qtyStep, invQty, hn]
    | remove =>
      by_cases hn : lowerStr it.name = lowerStr n
      · simp only [applyInventoryChange, qtyStep, invQty, List.find?_nil, hn]
        simp only [beq_self_eq_true, if_true]
        rw [max_eq_right (by omega : (0:Int) - it.quantity ≤ 0)]
      · simp [applyInventoryChange, qtyStep, invQty, hn]
  | cons x xs ih =>
    intro hInv n
    obtain ⟨hnd, hpos⟩ := hInv
    rw [List.map_cons, List.nodup_cons] at hnd
    have hxq : 0 < x.quantity := hpos x (by simp)
    have hposTail : ∀ i ∈ xs, 0 < i.quantity := fun i hi => hpos i (by simp [hi])
    have hInvTail : invInvariant xs := ⟨hnd.2, hposTail⟩
    by_cases hx : lowerStr x.name = lowerStr it.name
    · cases act with
      | add =>
        by_cases hn : lowerStr x.name = lowerStr n
        · have hitn : lowerStr it.name = lowerStr n := hx ▸ hn
          rw [invQty_cons_pos hn]
          simp only [applyInventoryChange, hx]
          rw [if_pos (by simp)]
          rw [invQty_cons_pos (show lowerStr ({ x with quantity := x.quantity + it.quantity } :
              InventoryItem).name = lowerStr n from hn)]
          simp [qtyStep, hitn]
        · have hitn : lowerStr it.name ≠ lowerStr n := fun h => hn (hx ▸ h)
          rw [invQty_cons_neg hn]
          simp only [applyInventoryChange, hx]
          rw [if_pos (by simp)]
          rw [invQty_cons_neg (show lowerStr ({ x with quantity := x.quantity + it.quantity } :
              InventoryItem).name ≠ lowerStr n from hn)]
          simp [qtyStep, hitn]
      | remove =>
        by_cases hn : lowerStr x.name = lowerStr n
        · have hitn : lowerStr it.name = lowerStr n := hx ▸ hn
          rw [invQty_cons_pos hn]
          simp only [applyInventoryChange, hx]
          rw [if_pos (by simp)]
          by_cases hrem : x.quantity - it.quantity ≤ 0
          · rw [if_pos hrem]
            have hzero : invQty xs n = 0 := by
              apply invQty_eq_zero_of_no_match
              intro i hi hik
              exact hnd.1 (by
                rw [List.mem_map]
                exact ⟨i, hi, by simp [itemKey, hik, hn]⟩)
            rw [hzero]
            simp only [qtyStep, hitn, beq_self_eq_true, if_true]
            rw [max_eq_right hrem]
          · rw [if_neg hrem]
            rw [invQty_cons_pos (show lowerStr ({ x with quantity := x.quantity - it.quantity } :
                InventoryItem).name = lowerStr n from hn)]
            simp only [qtyStep, hitn, beq_self_eq_true, if_true]
            rw [max_eq_left (by omega)]
        · have hitn : lowerStr it.name ≠ lowerStr n := fun h => hn (hx ▸ h)
          rw [invQty_cons_neg hn]
          simp only [applyInventoryChange, hx]
          rw [if_pos (by simp)]
          by_cases hrem : x.quantity - it.quantity ≤ 0
          · rw [if_pos hrem]
            simp [qtyStep, hitn]
          · rw [if_neg hrem]
            rw [invQty_cons_neg (show lowerStr ({ x with quantity := x.quantity - it.quantity } :
                InventoryItem).name ≠ lowerStr n from hn)]
            simp [qtyStep, hitn]
    · have hred : applyInventoryChange (x :: xs) ⟨act, it⟩
        = x :: applyInventoryChange xs ⟨act, it⟩ := by
        simp only [applyInventoryChange]
        rw [if_neg (by simpa using hx)]
      rw [hred]
      by_cases hn : lowerStr x.name = lowerStr n
      · have hitn : lowerStr it.name ≠ lowerStr n := fun h => hx (hn.trans h.symm)
        rw [invQty_cons_pos hn, invQty_cons_pos hn]
        simp [qtyStep, hitn]
      · rw [invQty_cons_neg hn, invQty_cons_neg hn]
        exact ih hInvTail n

theorem mem_keys_applyInventoryChange (ch : InventoryChange) :
    ∀ inv k, k ∈ (applyInventoryChange inv ch).map itemKey →
      k ∈ inv.map itemKey ∨ k = itemKey ch.item := by
  obtain ⟨act, it⟩ := ch
  intro inv
  induction inv with
  | nil =>
    intro k hk
    cases act with
    | add => simp [applyInventoryChange] at hk; simp [hk, itemKey]
    | remove => simp [applyInventoryChange] at hk
  | cons x xs ih =>
    intro k hk
    by_cases hx : lowerStr x.name = lowerStr it.name
    · cases act with
      | add =>
        simp only [applyInventoryChange] at hk
        rw [if_pos (by simpa using hx)] at hk
        rw [List.map_cons, List.mem_cons] at hk
        rcases hk with hk | hk
        · left; rw [List.map_cons, List.mem_cons]; left; simpa [itemKey] using hk
        · left; rw [List.map_cons, List.mem_cons]; right; exact hk
      | remove =>
        simp only [applyInventoryChange] at hk
        rw [if_pos (by simpa using hx)] at hk
        by_cases hrem : x.quantity - it.quantity ≤ 0
        · rw [if_pos hrem] at hk
          left; rw [List.map_cons, List.mem_cons]; right; exact hk
        · rw [if_neg hrem] at hk
          rw [List.map_cons, List.mem_cons] at hk
          rcases hk with hk | hk
          · left; rw [List.map_cons, List.mem_cons]; left; simpa [itemKey] using hk
          · left; rw [List.map_cons, List.mem_cons]; right; exact hk
    · have hred : applyInventoryChange (x :: xs) ⟨act, it⟩
        = x :: applyInventoryChange xs ⟨act, it⟩ := by
        simp only [applyInventoryChange]
        rw [if_neg (by simpa using hx)]
      rw [hred, List.map_cons, List.mem_cons] at hk
      rcases hk with hk | hk
      · left; rw [List.map_cons, List.mem_cons]; left; exact hk
      · rcases ih k hk with h | h
        · left; rw [List.map_cons, List.mem_cons]; right; exact h
        · right; exact h

theorem invInvariant_applyInventoryChange (ch : InventoryChange) (hq : 0 < ch.item.quantity) :
    ∀ inv, invInvariant inv → invInvariant (applyInventoryChange inv ch) := by
  obtain ⟨act, it⟩ := ch
  have hq' : 0 < it.quantity := hq
  intro inv
  induction inv with
  | nil =>
    intro _
    cases act with
    | add =>
      refine ⟨by simp [applyInventoryChange], ?_⟩
      intro i hi
      simp [applyInventoryChange] at hi
      simpa [hi] using hq
    | remove => exact ⟨by simp [applyInventoryChange], by simp [applyInventoryChange]⟩
  | cons x xs ih =>
    intro hInv
    obtain ⟨hnd, hpos⟩ := hInv
    rw [List.map_cons, List.nodup_cons] at hnd
    have hxq : 0 < x.quantity := hpos x (by simp)
    have hposTail : ∀ i ∈ xs, 0 < i.quantity := fun i hi => hpos i (by simp [hi])
    have hInvTail : invInvariant xs := ⟨hnd.2, hposTail⟩
    by_cases hx : lowerStr x.name = lowerStr it.name
    · cases act with
      | add =>
        simp only [applyInventoryChange]
        rw [if_pos (by simpa using hx)]
        constructor
        · rw [List.map_cons]
          rw [List.nodup_cons]
          exact ⟨by simpa [itemKey] using hnd.1, hnd.2⟩
        · intro i hi
          rw [List.mem_cons] at hi
          rcases hi with hi | hi
          · subst hi; simp; omega
          · exact hposTail i hi
      | remove =>
        simp only [applyInventoryChange]
        rw [if_pos (by simpa using hx)]
        by_cases hrem : x.quantity - it.quantity ≤ 0
        · rw [if_pos hrem]; exact hInvTail
        · rw [if_neg hrem]
          constructor
          · rw [List.map_cons, List.nodup_cons]
            exact ⟨by simpa [itemKey] using hnd.1, hnd.2⟩
          · intro i hi
            rw [List.mem_cons] at hi
            rcases hi with hi | hi
            · subst hi; simp; omega
            · exact hposTail i hi
    · have hred : applyInventoryChange (x :: xs) ⟨act, it⟩
        = x :: applyInventoryChange xs ⟨act, it⟩ := by
        simp only [applyInventoryChange]
        rw [if_neg (by simpa using hx)]
      rw [hred]
      have hrec := ih hInvTail
      constructor
      · rw [List.map_cons, List.nodup_cons]
        refine ⟨?_, hrec.1⟩
        intro hmem
        rcases mem_keys_applyInventoryChange ⟨act, it⟩ xs (itemKey x) hmem with h | h
        · exact hnd.1 h
        · exact hx h
      · intro i hi
        rw [List.mem_cons] at hi
        rcases hi with hi | hi
        · subst hi; exact hxq
        · exact hrec.2 i hi

theorem invInvariant_applyDeltas :
    ∀ (ds : List InventoryChange) (inv : List InventoryItem), invInvariant inv →
      (∀ ch ∈ ds, 0 < ch.item.quantity) → invInvariant (applyDeltas inv ds)
  | [], inv, hInv, _ => hInv
  | d :: ds, inv, hInv, hq =>
    invInvariant_applyDeltas ds (applyInventoryChange inv d)
      (invInvariant_applyInventoryChange d (hq d (by simp)) inv hInv)
      (fun ch hch => hq ch (by simp [hch]))

theorem invQty_applyDeltas :
    ∀ (ds : List InventoryChange) (inv : List InventoryItem), invInvariant inv →
      (∀ ch ∈ ds, 0 < ch.item.quantity) → ∀ n,
      invQty (applyDeltas inv ds) n = clampedFoldQty (invQty inv n) ds n
  | [], inv, _, _, n => rfl
  | d :: ds, inv, hInv, hq, n => by
    have h₁ : applyDeltas inv (d :: ds) = applyDeltas (applyInventoryChange inv d) ds := rfl
    have h₂ : clampedFoldQty (invQty inv n) (d :: ds) n
        = clampedFoldQty (qtyStep (invQty inv n) d n) ds n := rfl
    rw [h₁, h₂, ← invQty_applyInventoryChange d (hq d (by simp)) inv hInv n]
    exact invQty_applyDeltas ds (applyInventoryChange inv d)
      (invInvariant_applyInventoryChange d (hq d (by simp)) inv hInv)
      (fun ch hch => hq ch (by simp [hch])) n

theorem applyInventoryChange_remove_of_no_match :
    ∀ (inv : List InventoryItem) (it : InventoryItem),
      (∀ i ∈ inv, itemKey i ≠ itemKey it) →
      applyInventoryChange inv ⟨InvAction.remove, it⟩ = inv := by
  intro inv it
  induction inv with
  | nil => intro _; rfl
  | cons x xs ih =>
    intro h
    have hx : lowerStr x.name ≠ lowerStr it.name := h x (by simp)
    simp only [applyInventoryChange]
    rw [if_neg (by simpa using hx)]
    rw [ih (fun i hi => h i (by simp [hi]))]

theorem applyInventoryChange_add_names :
    ∀ (inv : List InventoryItem) (it : InventoryItem),
      (∃ i ∈ inv, itemKey i = itemKey it) →
      (applyInventoryChange inv ⟨InvAction.add, it⟩).map InventoryItem.name
        = inv.map InventoryItem.name := by
  intro inv it
  induction inv with
  | nil => rintro ⟨i, hi, -⟩; simp at hi
  | cons x xs ih =>
    rintro ⟨i, hi, hik⟩
    by_cases hx : lowerStr x.name = lowerStr it.name
    · simp only [applyInventoryChange]
      rw [if_pos (by simpa using hx)]
      simp
    · have hred : applyInventoryChange (x :: xs) ⟨InvAction.add, it⟩
        = x :: applyInventoryChange xs ⟨InvAction.add, it⟩ := by
        simp only [applyInventoryChange]
        rw [if_neg (by simpa using hx)]
      rw [hred, List.map_cons, List.map_cons]
      rw [List.mem_cons] at hi
      rcases hi with hi | hi
      · subst hi; exact absurd hik hx
      · rw [ih ⟨i, hi, hik⟩]

/-! ### Claim theorems -/

/-- C2, counterexample: the final quantity per item name does NOT in general
equal the sum of added quantities minus removed quantities floored at zero.
On the sequence add 1 / remove 5 / add 3 of one name, starting from the empty
inventory (which satisfies the claim's hypotheses), the engine yields
quantity 3 while the floored net sum is 0. -/
theorem inventory_net_sum_counterexample :
    invInvariant ([] : List InventoryItem)
    ∧ (∀ ch ∈ exDeltas, 0 < ch.item.quantity)
    ∧ invQty (applyDeltas [] exDeltas) "x" = 3
    ∧ max (claimNetQty exDeltas "x") 0 = 0
    ∧ invQty (applyDeltas [] exDeltas) "x" ≠ max (claimNetQty exDeltas "x") 0 := by
  refine ⟨by decide, by decide, by decide, by decide, by decide⟩

/-- C2, amended: for every delta sequence applied via the mutation engine,
starting from an inventory satisfying the data-model invariant and with
positive delta quantities, the final quantity per name equals the
left-to-right per-delta fold in which each remove clamps at zero (the entry
being removed at zero), so a remove exceeding the available quantity is
forgiven rather than debited against later adds; along the whole sequence no
quantity is ever non-positive and at most one entry per case-insensitive
name exists; a remove matching no entry is a no-op; and an add matching an
existing entry case-insensitively sums the quantities into the one existing
entry, retaining the original casing (Torch 1 + add torch 2 = Torch 3). -/
theorem inventory_reconciliation_clamped (inv : List InventoryItem)
    (ds : List InventoryChange) (hInv : invInvariant inv)
    (hq : ∀ ch ∈ ds, 0 < ch.item.quantity) :
    (∀ n, invQty (applyDeltas inv ds) n = clampedFoldQty (invQty inv n) ds n)
    ∧ (∀ pre suff, ds = pre ++ suff → invInvariant (applyDeltas inv pre))
    ∧ (∀ it : InventoryItem, (∀ i ∈ inv, itemKey i ≠ itemKey it) →
        applyInventoryChange inv ⟨InvAction.remove, it⟩ = inv)
    ∧ (∀ it : InventoryItem, (∃ i ∈ inv, itemKey i = itemKey it) →
        (applyInventoryChange inv ⟨InvAction.add, it⟩).map InventoryItem.name
          = inv.map InventoryItem.name)
    ∧ applyInventoryChange [⟨"Torch", "a torch", 1, ItemType.item⟩]
        ⟨InvAction.add, ⟨"torch", "a torch", 2, ItemType.item⟩⟩
      = [⟨"Torch", "a torch", 3, ItemType.item⟩] := by
  refine ⟨invQty_applyDeltas ds inv hInv hq, ?_,
          fun it h => applyInventoryChange_remove_of_no_match inv it h,
          fun it h => applyInventoryChange_add_names inv it h, by decide⟩
  intro pre suff hpre
  exact invInvariant_applyDeltas pre inv hInv (fun ch hch => hq ch (by simp [hpre, hch]))

/-- Witness for the amended C2 theorem at a concrete instance. -/
theorem inventory_reconciliation_clamped_witness :
    applyInventoryChange [⟨"Torch", "a torch", 1, ItemType.item⟩]
        ⟨InvAction.add, ⟨"torch", "a torch", 2, ItemType.item⟩⟩
      = [⟨"Torch", "a torch", 3, ItemType.item⟩] :=
  (inventory_reconciliation_clamped [] [] (by decide) (by decide)).2.2.2.2

/-- C1: for every processed turn result the resulting phase is `gameOver`
exactly when the result's game-over flag is set or the post-mutation
character health is at most zero (regardless of the combat flag); otherwise
the phase is `combat` when the combat flag is set and `gameplay` when it is
not; and whenever the new phase is `gameOver` the undo snapshot is
discarded.  The last conjunct records that the post-mutation character is
stored with exactly the incoming health. -/
theorem turn_phase_and_snapshot_discipline (s : AppState) (tr : GameTurnResult)
    (nc : Character) :
    ((processTurnResult s tr nc).gameState = GameState.gameOver ↔
      (tr.isGameOver = true ∨ nc.health ≤ 0))
    ∧ (¬(tr.isGameOver = true ∨ nc.health ≤ 0) →
        (processTurnResult s tr nc).gameState
          = (if tr.isCombat then GameState.combat else GameState.gameplay))
    ∧ ((processTurnResult s tr nc).gameState = GameState.gameOver →
        (processTurnResult s tr nc).previousTurnState = none)
    ∧ (∃ c, (processTurnResult s tr nc).character = some c ∧ c.health = nc.health) := by
  by_cases h : tr.isGameOver = true ∨ nc.health ≤ 0
  · refine ⟨?_, fun hcon => absurd h hcon, fun _ => ?_, ?_⟩ <;>
      simp [processTurnResult, h]
  · have hne : ∀ g, (if tr.isCombat then GameState.combat else GameState.gameplay) = g →
        g ≠ GameState.gameOver := by
      intro g hg
      cases htr : tr.isCombat <;> simp [htr] at hg <;> simp [← hg]
    refine ⟨?_, fun _ => ?_, fun hgo => ?_, ?_⟩
    · simp [processTurnResult, h]
      cases htr : tr.isCombat <;> simp
    · simp [processTurnResult, h]
    · exfalso
      have : (processTurnResult s tr nc).gameState
          = (if tr.isCombat then GameState.combat else GameState.gameplay) := by
        simp [processTurnResult, h]
      rw [this] at hgo
      exact hne _ rfl hgo
    · simp [processTurnResult, h]

/-- Witness for C1 at a concrete instance: the hypothesis-free game-over iff
conjunct. -/
theorem turn_phase_and_snapshot_discipline_witness :
    (processTurnResult sampleState sampleTurn sampleCharacter).gameState
        = GameState.gameOver
      ↔ (sampleTurn.isGameOver = true ∨ sampleCharacter.health ≤ 0) :=
  (turn_phase_and_snapshot_discipline sampleState sampleTurn sampleCharacter).1

/-- C3: a submitted turn whose narrative-generation call fails leaves phase,
character and the undo snapshot exactly as they were immediately before the
call (the snapshot having been set to the pre-turn state by the pre-call
steps), sets the error to the failure message, appends a system-speaker
error message after the already-appended player message, ends with
`isLoading = false`, and mutates nothing else in the component state. -/
theorem failed_turn_preserves_state (s : AppState) (ch : Character)
    (choice msg : String) (h : s.character = some ch) :
    (handlePlayerChoice s choice (Except.error msg)).gameState = s.gameState
    ∧ (handlePlayerChoice s choice (Except.error msg)).character = s.character
    ∧ (handlePlayerChoice s choice (Except.error msg)).previousTurnState
        = some ⟨s.gameState, ch, s.messages, s.choices, s.attackOptions⟩
    ∧ (handlePlayerChoice s choice (Except.error msg)).error = some msg
    ∧ (handlePlayerChoice s choice (Except.error msg)).messages
        = (s.messages ++ [Message.mk Speaker.player choice])
          ++ [Message.mk Speaker.system ("Error: " ++ msg)]
    ∧ (handlePlayerChoice s choice (Except.error msg)).isLoading = false
    ∧ (handlePlayerChoice s choice (Except.error msg)).choices = s.choices
    ∧ (handlePlayerChoice s choice (Except.error msg)).attackOptions = s.attackOptions
    ∧ (handlePlayerChoice s choice (Except.error msg)).savedGames = s.savedGames
    ∧ (handlePlayerChoice s choice (Except.error msg)).creatorOptions = s.creatorOptions
    ∧ (handlePlayerChoice s choice (Except.error msg)).saveMessage = s.saveMessage
    ∧ (handlePlayerChoice s choice (Except.error msg)).hasInitiatedOptionsFetch
        = s.hasInitiatedOptionsFetch
    ∧ (handlePlayerChoice s choice (Except.error msg)).worldThemeForContinuation
        = s.worldThemeForContinuation
    ∧ (handlePlayerChoice s choice (Except.error msg)).previousProtagonist
        = s.previousProtagonist
    ∧ (handlePlayerChoice s choice (Except.error msg)).worldHistoryForContinuation
        = s.worldHistoryForContinuation
    ∧ (handlePlayerChoice s choice (Except.error msg)).isSwitchingPerspective
        = s.isSwitchingPerspective := by
  simp [handlePlayerChoice, h]

/-- Witness for C3 at a concrete instance. -/
theorem failed_turn_preserves_state_witness :
    (handlePlayerChoice sampleState "Look around" (Except.error "boom")).error
      = some "boom" :=
  (failed_turn_preserves_state sampleState sampleCharacter "Look around" "boom"
    rfl).2.2.2.1

/-- C4, counterexample: `handlePlayerChoice` does not reject a call made
while `isLoading` is true — with a live character present it proceeds and
mutates session state (here: the player message is appended), so the
re-entrant call is not a no-op. -/
theorem reentrant_submit_not_rejected :
    ({ sampleState with isLoading := true } : AppState).isLoading = true
    ∧ handlePlayerChoice { sampleState with isLoading := true } "Press on"
        (Except.error "network failure")
      ≠ { sampleState with isLoading := true }
    ∧ (handlePlayerChoice { sampleState with isLoading := true } "Press on"
        (Except.error "network failure")).messages
      ≠ ({ sampleState with isLoading := true } : AppState).messages := by
  refine ⟨rfl, by decide, by decide⟩

/-- C4, amended: `handlePlayerChoice` performs no `isLoading` check at all —
its result is entirely independent of the incoming `isLoading` flag, and
with a live character a call made while a turn is in flight proceeds exactly
like any other call (the undo snapshot is overwritten and the player message
is appended; only a missing character causes the guarded no-op).
Re-entrancy is prevented only by the presentation layer, which disables the
submitting controls while `isLoading` is true. -/
theorem submit_ignores_isLoading (s : AppState) (ch : Character)
    (choice msg : String) (b₁ b₂ : Bool) (outcome : Except String GameTurnResult)
    (h : s.character = some ch) :
    handlePlayerChoice { s with isLoading := b₁ } choice outcome
      = handlePlayerChoice { s with isLoading := b₂ } choice outcome
    ∧ (handlePlayerChoice { s with isLoading := true } choice
        (Except.error msg)).messages
      = s.messages ++ [Message.mk Speaker.player choice,
                       Message.mk Speaker.system ("Error: " ++ msg)]
    ∧ (handlePlayerChoice { s with isLoading := true } choice
        (Except.error msg)).previousTurnState
      = some ⟨s.gameState, ch, s.messages, s.choices, s.attackOptions⟩ := by
  refine ⟨?_, ?_, ?_⟩ <;> simp [handlePlayerChoice, h]

/-- Witness for the amended C4 theorem at a concrete instance. -/
theorem submit_ignores_isLoading_witness :
    (handlePlayerChoice { sampleState with isLoading := true } "Press on"
        (Except.error "network failure")).previousTurnState
      = some ⟨sampleState.gameState, sampleCharacter, sampleState.messages,
              sampleState.choices, sampleState.attackOptions⟩ :=
  (submit_ignores_isLoading sampleState sampleCharacter "Press on"
    "network failure" true true (Except.error "network failure") rfl).2.2

/-- The first save whose id equals the id just upserted is the upserted save
itself (`findIndex`-replace keeps it at the first matching position;
otherwise it is appended past entries none of which match). -/
theorem find?_upsertSave (saves : List SaveData) (sd : SaveData) :
    (upsertSave saves sd).find? (fun x => x.id == sd.id) = some sd := by
  induction saves with
  | nil => simp [upsertSave]
  | cons x xs ih =>
    by_cases hx : x.id = sd.id
    · simp [upsertSave, hx]
    · simp only [upsertSave]
      rw [if_neg (by simpa using hx)]
      rw [List.find?_cons_of_neg _ (by simpa using hx)]
      exact ih

/-- C5: saving a session with a live character and then loading that
character's id restores a session equal to the original in all five of
phase, character, messages, choices and attack options. -/
theorem save_load_round_trip (s : AppState) (ch : Character)
    (stored : List SaveData) (now : String) (h : s.character = some ch) :
    (handleLoadGame (handleSaveGame s stored now).1 ch.id none).gameState
        = s.gameState
    ∧ (handleLoadGame (handleSaveGame s stored now).1 ch.id none).character
        = s.character
    ∧ (handleLoadGame (handleSaveGame s stored now).1 ch.id none).messages
        = s.messages
    ∧ (handleLoadGame (handleSaveGame s stored now).1 ch.id none).choices
        = s.choices
    ∧ (handleLoadGame (handleSaveGame s stored now).1 ch.id none).attackOptions
        = s.attackOptions := by
  have hfind := find?_upsertSave stored
    ⟨ch.id, now, s.gameState, ch, s.messages, s.choices, s.attackOptions⟩
  simp [handleSaveGame, handleLoadGame, h, hfind]

/-- Witness for C5 at a concrete instance. -/
theorem save_load_round_trip_witness :
    (handleLoadGame (handleSaveGame sampleState [] "2024-01-01T00:00:00.000Z").1
        sampleCharacter.id none).character = sampleState.character :=
  (save_load_round_trip sampleState sampleCharacter [] "2024-01-01T00:00:00.000Z"
    rfl).2.1

/-- C7: undo is available exactly when a snapshot exists and no turn is in
flight; when a snapshot exists, undo restores phase, character, messages,
choices and attack options to the snapshot's values and clears the snapshot;
with no snapshot undo changes nothing, so a second undo with no intervening
turn is always a no-op. -/
theorem undo_single_level (s : AppState) :
    (canUndo s = true ↔ (s.previousTurnState ≠ none ∧ s.isLoading = false))
    ∧ (∀ snap, s.previousTurnState = some snap →
        ((handleUndo s).gameState = snap.gameState
         ∧ (handleUndo s).character = some snap.character
         ∧ (handleUndo s).messages = snap.messages
         ∧ (handleUndo s).choices = snap.choices
         ∧ (handleUndo s).attackOptions = snap.attackOptions
         ∧ (handleUndo s).previousTurnState = none))
    ∧ (s.previousTurnState = none → handleUndo s = s)
    ∧ handleUndo (handleUndo s) = handleUndo s := by
  refine ⟨?_, ?_, ?_, ?_⟩
  · simp [canUndo, Option.isSome_iff_ne_none]
  · intro snap hsnap
    simp [handleUndo, hsnap]
  · intro hnone
    simp [handleUndo, hnone]
  · cases hp : s.previousTurnState with
    | none => simp [handleUndo, hp]
    | some snap => simp [handleUndo, hp]

/-- Witness for C7 at a concrete instance: the availability
characterization. -/
theorem undo_single_level_witness :
    canUndo sampleState = true ↔
      (sampleState.previousTurnState ≠ none ∧ sampleState.isLoading = false) :=
  (undo_single_level sampleState).1

/-- C8: the perspective-switch candidate list contains exactly the saves
whose character theme equals the current character's theme and whose
character id differs from the current character's id. -/
theorem perspective_switch_candidates (savedGames : List SaveData)
    (curId curTheme : String) :
    ∀ sv, sv ∈ availableCharacters savedGames (some curId) (some curTheme) ↔
      (sv ∈ savedGames ∧ sv.character.theme = curTheme ∧ sv.character.id ≠ curId) := by
  intro sv
  simp [availableCharacters, List.mem_filter, and_assoc]

/-- Witness for C8 at a concrete instance: a same-theme, different-id save is
offered. -/
theorem perspective_switch_candidates_witness :
    (⟨"2-Bren", "t", GameState.gameplay,
        { sampleCharacter with id := "2-Bren", name := "Bren" }, [], [], []⟩ : SaveData)
      ∈ availableCharacters
        [⟨"2-Bren", "t", GameState.gameplay,
          { sampleCharacter with id := "2-Bren", name := "Bren" }, [], [], []⟩]
        (some sampleCharacter.id) (some sampleCharacter.theme) :=
  (perspective_switch_candidates
    [⟨"2-Bren", "t", GameState.gameplay,
      { sampleCharacter with id := "2-Bren", name := "Bren" }, [], [], []⟩]
    sampleCharacter.id sampleCharacter.theme _).mpr (by decide)

/-- C9: a successful turn changes at most the character's health and
inventory — id, name, theme, description, alignment, backstory, maxHealth,
customizations, companions, canonEvents, visualTheme and isFromKnownWorld
are all unchanged. -/
theorem turn_character_frame (s : AppState) (ch : Character) (choice : String)
    (tr : GameTurnResult) (h : s.character = some ch) :
    ∃ c, (handlePlayerChoice s choice (Except.ok tr)).character = some c
      ∧ c.id = ch.id ∧ c.name = ch.name ∧ c.theme = ch.theme
      ∧ c.description = ch.description ∧ c.alignment = ch.alignment
      ∧ c.backstory = ch.backstory ∧ c.maxHealth = ch.maxHealth
      ∧ c.customizations = ch.customizations ∧ c.companions = ch.companions
      ∧ c.canonEvents = ch.canonEvents ∧ c.visualTheme = ch.visualTheme
      ∧ c.isFromKnownWorld = ch.isFromKnownWorld := by
  refine Exists.intro
    { ch with health := tr.updatedHealth,
              inventory := (match tr.inventoryChange with
                            | some c => applyInventoryChange ch.inventory c
                            | none => ch.inventory) }
    ⟨?_, rfl, rfl, rfl, rfl, rfl, rfl, rfl, rfl, rfl, rfl, rfl, rfl⟩
  by_cases hgo : tr.isGameOver = true ∨ tr.updatedHealth ≤ 0 <;>
    simp [handlePlayerChoice, processTurnResult, h, hgo]

/-- Witness for C9 at a concrete instance. -/
theorem turn_character_frame_witness :
    ∃ c, (handlePlayerChoice sampleState "Look around"
        (Except.ok sampleTurn)).character = some c
      ∧ c.id = sampleCharacter.id ∧ c.name = sampleCharacter.name
      ∧ c.theme = sampleCharacter.theme
      ∧ c.description = sampleCharacter.description
      ∧ c.alignment = sampleCharacter.alignment
      ∧ c.backstory = sampleCharacter.backstory
      ∧ c.maxHealth = sampleCharacter.maxHealth
      ∧ c.customizations = sampleCharacter.customizations
      ∧ c.companions = sampleCharacter.companions
      ∧ c.canonEvents = sampleCharacter.canonEvents
      ∧ c.visualTheme = sampleCharacter.visualTheme
      ∧ c.isFromKnownWorld = sampleCharacter.isFromKnownWorld :=
  turn_character_frame sampleState sampleCharacter "Look around" sampleTurn rfl

/-- C10: with no live character, submitting a turn, letting fate decide, and
saving are all guarded no-ops: the state is returned unchanged (whatever the
service outcome would have been) and no storage write happens. -/
theorem missing_character_guards (s : AppState) (h : s.character = none) :
    (∀ choice outcome, handlePlayerChoice s choice outcome = s)
    ∧ (∀ outcome, handleLetFateDecide s outcome = s)
    ∧ (∀ stored now, handleSaveGame s stored now = (s, none)) := by
  refine ⟨?_, ?_, ?_⟩ <;> intros <;>
    simp [handlePlayerChoice, handleLetFateDecide, handleSaveGame, h]

/-- Witness for C10 at a concrete instance. -/
theorem missing_character_guards_witness :
    handlePlayerChoice initialAppState "go" (Except.error "e") = initialAppState :=
  (missing_character_guards initialAppState rfl).1 "go" (Except.error "e")

end AdventureForge
